import Mathlib

/-!
Verification of the YouTube transcript / channel-profile service.

A shallow embedding of the request-orchestration service (`app/main.py`,
`app/utils.py`, `app/gemini_rest.py`, `app/apify_client.py`) together with
proofs of the frozen specification claims.

Modelling conventions:

* External collaborators (the Apify transcript provider, the Gemini
  generation provider, Python's `json.loads`/`json.dumps`, and the prompt
  f-string builders of `app/prompts.py`, which the spec explicitly excludes
  from the core) are modelled as fields of an `Env` record: pure oracles the
  pipeline consults.  Every claim is proved for all environments.
* Python dictionaries returned by the pipeline are modelled as Lean
  structures whose `Option` fields record whether the corresponding key is
  present in the literal `dict` built by the source.
* Python strings are Lean `String`s; slicing `s[:n]` is `take` on the list
  of characters, `len` is the character count, and `str.strip()` /
  `str.lower()` are modelled on the ASCII character classes that the
  service's data actually uses.
* `asyncio.gather` returns results in the order of the task list it was
  given, irrespective of completion order, and the semaphore in
  `_process_one` only schedules work; neither affects the value produced
  for an item.  The orchestrator is therefore embedded as an index-ordered
  map over the normalized URL list.
-/

namespace YtSvc

/-- Decidable equality for `Except`, used to evaluate the pipeline on
concrete witness inputs. -/
instance {ε α : Type} [DecidableEq ε] [DecidableEq α] : DecidableEq (Except ε α) := fun x y =>
  match x, y with
  | .ok a, .ok b =>
    if h : a = b then isTrue (by rw [h]) else isFalse (fun hc => h (Except.ok.inj hc))
  | .error a, .error b =>
    if h : a = b then isTrue (by rw [h]) else isFalse (fun hc => h (Except.error.inj hc))
  | .ok _, .error _ => isFalse (fun hc => Except.noConfusion hc)
  | .error _, .ok _ => isFalse (fun hc => Except.noConfusion hc)

/-- A JSON value, as produced by Python's `json.loads`.  (Numbers are
modelled as integers; no claim depends on numeric contents.) -/
inductive Json where
  | null : Json
  | bool (b : Bool) : Json
  | num (n : Int) : Json
  | str (s : String) : Json
  | arr (elems : List Json) : Json
  | obj (fields : List (String × Json)) : Json

/-- Key lookup in a JSON object: `d.get(k)` on a parsed JSON dict
(`json.loads` output has unique keys, so first-match lookup is faithful). -/
def lookupField : List (String × Json) → String → Option Json
  | [], _ => none
  | (k', v) :: rest, k => if k' = k then some v else lookupField rest k

/-- Key lookup continued: dispatch on the JSON value. -/
def jget : Json → String → Option Json
  | .obj fields, k => lookupField fields k
  | _, _ => none

/-- Python truthiness of a JSON value (`bool(v)`). -/
def jTruthy : Json → Bool
  | .null => false
  | .bool b => b
  | .num n => n ≠ 0
  | .str s => s ≠ ""
  | .arr [] => false
  | .arr _ => true
  | .obj [] => false
  | .obj _ => true

/-- Model of `d.get(k) or default` — Python `or` falls through on falsy values. -/
def jgetOr (j : Json) (k : String) (d : Json) : Json :=
  match jget j k with
  | some v => if jTruthy v then v else d
  | none => d

/-- Model of `d.get(k)` placed into a JSON document: an absent key becomes `None`,
serialized as JSON `null`. -/
def jgetN (j : Json) (k : String) : Json := (jget j k).getD Json.null

/-- Python `str()` of a JSON value, used by `segments_to_text` when a
segment field is not a string.  Strings map to themselves (the only case the
service's data exercises); other values get a simple printable rendering. -/
def jPyStr : Json → String
  | .null => "None"
  | .bool true => "True"
  | .bool false => "False"
  | .num n => toString n
  | .str s => s
  | .arr _ => "[...]"
  | .obj _ => "\x7b...\x7d"

/-! ## Character-level utilities (Python `str.strip`, `re` character classes) -/

/-- The characters stripped by Python's `str.strip()` and matched by `\s`
(ASCII range): space, tab, newline, carriage return, vertical tab, form
feed. -/
def isPySpace (c : Char) : Bool :=
  c = ' ' || c = '\t' || c = '\n' || c = '\r' || c = Char.ofNat 11 || c = Char.ofNat 12

/-- The separator class `[\s,\n]` used by `normalize_urls`'s `re.split`:
whitespace or comma. -/
def isSepChar (c : Char) : Bool := isPySpace c || c = ','

/-- Python `str.strip()` on a character list. -/
def pyStripL (l : List Char) : List Char :=
  ((l.dropWhile isPySpace).reverse.dropWhile isPySpace).reverse

/-- Python `str.strip()`. -/
def pyStrip (s : String) : String := String.mk (pyStripL s.toList)

/-- Python `str.lower()` (ASCII). -/
def pyLower (s : String) : String := String.mk (s.toList.map Char.toLower)

/-- Python slicing `s[:n]` (by code point). -/
def strTake (s : String) (n : Nat) : String := String.mk (s.toList.take n)

/-! ## `app/utils.py` -/

/-- State machine for `re.sub(r"[ \t]+", " ", t)`: each maximal run of
spaces/tabs is replaced by a single space.  The flag records whether the
previous character was part of such a run. -/
def collapseSpaceRuns : Bool → List Char → List Char
  | _, [] => []
  | prevRun, c :: rest =>
    if c = ' ' || c = '\t' then
      if prevRun then collapseSpaceRuns true rest
      else ' ' :: collapseSpaceRuns true rest
    else c :: collapseSpaceRuns false rest

/-- Flush a pending run of `n` newlines per `re.sub(r"\n{3,}", "\n\n", t)`:
runs of three or more newlines become exactly two, shorter runs survive. -/
def emitNewlines (n : Nat) : List Char :=
  if 3 ≤ n then ['\n', '\n'] else List.replicate n '\n'

/-- State machine for `re.sub(r"\n{3,}", "\n\n", t)`; the counter is the
length of the pending newline run. -/
def collapseNewlineRuns : Nat → List Char → List Char
  | pending, [] => emitNewlines pending
  | pending, c :: rest =>
    if c = '\n' then collapseNewlineRuns (pending + 1) rest
    else emitNewlines pending ++ c :: collapseNewlineRuns 0 rest

/-- Model of `utils.compact_text(text, max_chars)`: empty text maps to `""`; runs of
spaces/tabs collapse to one space, runs of ≥3 newlines collapse to two;
then, when `max_chars` is truthy (nonzero) and the text is longer, truncate
to `max_chars` characters. -/
def compact_text (text : String) (maxChars : Nat) : String :=
  if text = "" then ""
  else
    let t := String.mk (collapseNewlineRuns 0 (collapseSpaceRuns false text.toList))
    if maxChars ≠ 0 ∧ maxChars < t.length then strTake t maxChars else t

/-- Order-preserving de-duplication against a `seen` set, as in the final
loops of `normalize_urls` and `pick_language_priority`. -/
def dedupe (seen : List String) : List String → List String
  | [] => []
  | u :: rest => if u ∈ seen then dedupe seen rest else u :: dedupe (u :: seen) rest

/-- Accumulator machine computing the maximal runs of non-separator
characters of a string: the composite of `re.split(r"[\s,\n]+", s)` with the
`if not p: continue` filter that immediately follows it in
`normalize_urls`. -/
def chunksAux (acc : List Char) : List Char → List (List Char)
  | [] => match acc with
    | [] => []
    | _ => [acc.reverse]
  | c :: rest =>
    if isSepChar c then
      (match acc with
        | [] => ([] : List (List Char))
        | _ => [acc.reverse]) ++ chunksAux [] rest
    else chunksAux (c :: acc) rest

/-- The non-empty tokens of `re.split(r"[\s,\n]+", s)`. -/
def splitTokens (l : List Char) : List (List Char) := chunksAux [] l

/-- Python `"\n".join(raw)` on character lists. -/
def joinNL : List (List Char) → List Char
  | [] => []
  | [a] => a
  | a :: b :: rest => a ++ '\n' :: joinNL (b :: rest)

/-- Does the token start with `http://` or `https://`? -/
def startsHttp (l : List Char) : Bool :=
  "http://".toList.isPrefixOf l || "https://".toList.isPrefixOf l

/-- The token-cleaning core of `normalize_urls`: strip the joined input,
split it into tokens, strip each token, keep those with an `http(s)://`
prefix, and de-duplicate preserving first-seen order. -/
def normCore (joined : List Char) : List String :=
  dedupe [] ((splitTokens (pyStripL joined)).filterMap fun p =>
    if startsHttp (pyStripL p) then some (String.mk (pyStripL p)) else none)

/-- The run-time shapes `normalize_urls` accepts for `urls`: a list of
strings, a single string, or `None`. -/
inductive PyUrls where
  | list (us : List String) : PyUrls
  | str (s : String) : PyUrls
  | none : PyUrls

/-- Model of `utils.normalize_urls(urls)`: `None` maps to `[]`; a list drops falsy
(empty) entries and joins with newlines; a single string is used directly;
then the joined text is cleaned by `normCore`. -/
def normalize_urls : PyUrls → List String
  | .none => []
  | .str s => normCore s.toList
  | .list us => normCore (joinNL ((us.filter fun u => u ≠ "").map String.toList))

/-- Model of `utils.pick_language_priority(languages)`: `None` or `[]` fall back to
`["ko", "en"]`; otherwise entries are stripped, lower-cased, dropped when
empty and de-duplicated, with the same fallback when nothing survives. -/
def pick_language_priority (languages : Option (List String)) : List String :=
  match languages with
  | Option.none => ["ko", "en"]
  | some ls =>
    if ls = [] then ["ko", "en"]
    else
      let out := ls.filterMap fun x =>
        let s := pyLower (pyStrip x)
        if s = "" then Option.none else some s
      match dedupe [] out with
      | [] => ["ko", "en"]
      | uniq => uniq

/-- Python `a or b or ... or d`: the first truthy value in the list, else
the final default.  `None` (an absent key) is falsy. -/
def firstTruthy : List (Option Json) → Json → Json
  | [], d => d
  | v? :: rest, d =>
    match v? with
    | some v => if jTruthy v then v else firstTruthy rest d
    | Option.none => firstTruthy rest d

/-- Model of `utils.segments_to_text(segments, max_chars)`: non-list or falsy input
yields `""`; otherwise each dict segment contributes
`seg.get("text") or seg.get("caption") or seg.get("value") or ""` when
truthy, and each string segment contributes itself; the pieces are
newline-joined, stripped, and compacted (`max_chars` defaulting to the
joined length when zero). -/
def segments_to_text (segments : Json) (maxChars : Nat) : String :=
  match segments with
  | .arr [] => ""
  | .arr segs =>
    let texts := segs.filterMap fun seg =>
      match seg with
      | .obj _ =>
        let txt := firstTruthy [jget seg "text", jget seg "caption", jget seg "value"]
          (Json.str "")
        if jTruthy txt then some (jPyStr txt) else Option.none
      | .str s => some s
      | _ => Option.none
    let joined := pyStrip (String.mk (joinNL (texts.map String.toList)))
    if joined = "" then ""
    else compact_text joined (if maxChars = 0 then joined.length else maxChars)
  | _ => ""

/-! ## Data model (`app/main.py`, `app/apify_client.py`, `app/gemini_rest.py`) -/

/-- The standardized record returned by
`apify_client.fetch_transcript_and_metadata` (its `out` dict): every field
defaulted when the provider omits it, the transcript either a flat text
string or a raw JSON segment value.  (The `raw` diagnostic copy of the
provider payload is not consumed by the pipeline and is not modelled.) -/
structure FetchedRecord where
  title : String := ""
  description : String := ""
  channel_name : String := ""
  published_at : String := ""
  duration_seconds : Option Int := Option.none
  view_count : Option Int := Option.none
  like_count : Option Int := Option.none
  comment_count : Option Int := Option.none
  language : String := ""
  transcript : Json := Json.arr []
  transcript_text : String := ""

/-- The per-item `meta` dict of `_process_one`; `description` and the count
fields are present only in the full meta built after transcript extraction
succeeds (`Option.none` models an absent key). -/
structure VideoMeta where
  title : String := ""
  description : Option String := Option.none
  channel : String := ""
  published_at : String := ""
  duration_seconds : Option Int := Option.none
  view_count : Option Int := Option.none
  like_count : Option Int := Option.none
  comment_count : Option Int := Option.none
  language : String := ""
deriving DecidableEq

/-- The `videoAnalysis` sub-dict: `{ok: true, text}` on success,
`{ok: false, error, text}` on analysis failure. -/
structure Analysis where
  ok : Bool
  text : String
  error : Option String := Option.none
deriving DecidableEq

/-- One entry of the response's `videos` list.  `Option.none` in a field
models the key being absent from the dict literal `_process_one` returned
(three shapes: fetch failure, transcript failure, analyzed). -/
structure ItemResult where
  index : Nat
  url : String
  ok : Bool
  stage : Option String := Option.none
  meta : Option VideoMeta := Option.none
  error : Option String := Option.none
  transcript_chars : Option Nat := Option.none
  videoAnalysis : Option Analysis := Option.none
deriving DecidableEq

/-- The request `gemini_rest.analyze_with_gemini` issues to the generation
provider (`client.models.generate_content`): a model id, the prompt, and the
output-token ceiling carried by the request, if any. -/
structure GenerateContentRequest where
  model : String
  contents : String
  maxOutputTokens : Option Nat
deriving DecidableEq

/-- One invocation of `analyze_with_gemini` by the pipeline, with the
`max_output_tokens` argument the call site supplied. -/
structure GeminiCall where
  prompt : String
  max_output_tokens : Nat
deriving DecidableEq

/-- The dict `analyze_with_gemini` returns: `{ok: true, model, text}`. -/
structure GeminiResp where
  ok : Bool := true
  model : String
  text : String
deriving DecidableEq

/-- The `channelProfile` value when non-null: the successful
`analyze_with_gemini` response dict, or the `{ok: false, error}` failure
record. -/
inductive ProfileResult where
  | success (model : String) (text : String) : ProfileResult
  | failure (error : String) : ProfileResult
deriving DecidableEq

/-- One entry of the response's `warnings` list. -/
structure WarningEntry where
  index : Nat
  url : String
  stage : Option String
  error : Option String
deriving DecidableEq

/-- The response document of `_analyze_impl`.  `channelProfile = none`
models the Python `None` that serializes as JSON `null`; the key itself is
always present (see `responseDocJsonKeys`). -/
structure ResponseDoc where
  ok : Bool
  count : Nat
  videos : List ItemResult
  channelProfile : Option ProfileResult
  warnings : List WarningEntry
deriving DecidableEq

/-- A `fastapi.HTTPException` raised by `_analyze_impl`. -/
structure HttpError where
  status : Nat
  detail : String
deriving DecidableEq

/-- A validated `AnalyzeReq` (pydantic model), with its defaults. -/
structure AnalyzeReq where
  urls : List String
  languages : List String := ["ko", "en"]
  concurrency : Nat := 4
  make_channel_profile : Bool := true

/-- The external collaborators and environment-sourced configuration the
pipeline consults, modelled as pure oracles: the transcript provider
(`fetch_transcript_and_metadata` per URL and language, already
standardized), the generation provider (`generate_content`, yielding
`resp.text`, possibly `None`, or raising), Python's `json.loads` /
`json.dumps`, the prompt f-string builders of `app/prompts.py` (excluded
from the core by the spec), the configured model id and the transcript
length cap. -/
structure Env where
  fetch : String → String → Except String FetchedRecord
  generateContent : GenerateContentRequest → Except String (Option String)
  jsonLoads : String → Option Json
  jsonDumps : Json → String
  buildVideoAnalysisPrompt : Nat → String → String → String → String
  buildChannelProfilePrompt : String → String
  buildJsonRepairPrompt : String → String → String
  geminiModel : String
  maxTranscriptChars : Nat

/-! ## `app/gemini_rest.py` -/

/-- The provider request built by `analyze_with_gemini(prompt,
max_output_tokens)`: `client.models.generate_content(model=MODEL,
contents=prompt)`.  The function accepts a `max_output_tokens` parameter but
invokes `generate_content` without any generation config, so the issued
request carries **no** output-token ceiling — the supplied bound is
dropped. -/
def geminiRequest (env : Env) (prompt : String) (_maxOutputTokens : Nat) :
    GenerateContentRequest :=
  { model := env.geminiModel, contents := prompt, maxOutputTokens := Option.none }

/-- Model of `gemini_rest.analyze_with_gemini`: issue the request; on success return
`{ok: true, model: MODEL, text: (resp.text or "").strip()}`; provider
failures surface as exceptions (modelled as `Except.error`). -/
def analyzeWithGemini (env : Env) (prompt : String) (maxOutputTokens : Nat) :
    Except String GeminiResp :=
  match env.generateContent (geminiRequest env prompt maxOutputTokens) with
  | .error e => .error e
  | .ok rawText => .ok { model := env.geminiModel, text := pyStrip (rawText.getD "") }

/-! ## `_extract_json_from_text` (`app/main.py` lines 47–71) -/

/-- The backtick character. -/
def backtick : Char := Char.ofNat 96

/-- Index of the first occurrence of three consecutive backticks. -/
def findTriple : List Char → Option Nat
  | a :: b :: c :: rest =>
    if a = backtick ∧ b = backtick ∧ c = backtick then some 0
    else (findTriple (b :: c :: rest)).map (· + 1)
  | _ => Option.none

/-- Case-insensitive match of the 7-character opening tag of a
fenced block labelled `json`. -/
def isJsonFence (l : List Char) : Bool :=
  l.map Char.toLower = "```json".toList

/-- Match of a bare 3-character fence opening. -/
def isAnyFence (l : List Char) : Bool := l = "```".toList

/-- Attempt the fence regex at the current position: the opening tag, then a
greedy run of whitespace, then a lazy body ending at the first closing
fence.  Mirrors `r"```json\s*([\s\S]*?)```"` (and the unlabelled variant). -/
def tryFenceAt (isTag : List Char → Bool) (tagLen : Nat) (l : List Char) :
    Option (List Char) :=
  if isTag (l.take tagLen) then
    let body := (l.drop tagLen).dropWhile isPySpace
    (findTriple body).map fun j => body.take j
  else Option.none

/-- Model of `re.search` for the fence pattern: the leftmost position where the whole
pattern matches. -/
def searchFence (isTag : List Char → Bool) (tagLen : Nat) : List Char → Option (List Char)
  | [] => Option.none
  | c :: rest =>
    match tryFenceAt isTag tagLen (c :: rest) with
    | some body => some body
    | Option.none => searchFence isTag tagLen rest

/-- Model of `main._extract_json_from_text(text)`: empty input yields `None`; strip;
when a fence marker is present, prefer the body of a ` ```json ` block, then
of any fenced block, stripping the extracted body; finally parse with
`json.loads` (`None` on parse failure). -/
def extractJsonFromText (jsonLoads : String → Option Json) (text : String) : Option Json :=
  if text = "" then Option.none
  else
    let t := pyStripL text.toList
    let t :=
      if (findTriple t).isSome then
        match searchFence isJsonFence 7 t with
        | some body => pyStripL body
        | Option.none =>
          match searchFence isAnyFence 3 t with
          | some body => pyStripL body
          | Option.none => t
      else t
    jsonLoads (String.mk t)

/-! ## `_process_one` (`app/main.py` lines 74–195) -/

/-- The language-priority loop of `_process_one` (lines 85–98): try each
language in order, stop at the first success (clearing the stored error);
on an exception record its message and continue.  The second component is
the `apify_error` variable when the loop ends. -/
def fetchLoop (env : Env) (url : String) :
    List String → Option String → Option FetchedRecord × Option String
  | [], err => (Option.none, err)
  | lang :: rest, _ =>
    match env.fetch url lang with
    | .ok d => (some d, Option.none)
    | .error e => fetchLoop env url rest (some e)

/-- Python `x or default` on an optional string: `None` and `""` are falsy. -/
def orElseStr (o : Option String) (d : String) : String :=
  match o with
  | some s => if s = "" then d else s
  | Option.none => d

/-- Transcript extraction (lines 109–117): compact the flat
`transcript_text`; when that is empty, fall back to joining the segment
list. -/
def extractTranscript (env : Env) (d : FetchedRecord) : String :=
  let t := compact_text d.transcript_text env.maxTranscriptChars
  if t = "" then segments_to_text d.transcript env.maxTranscriptChars else t

/-- The reduced meta of the transcript-failure result (lines 125–130). -/
def metaShort (d : FetchedRecord) : VideoMeta :=
  { title := d.title, channel := d.channel_name,
    published_at := d.published_at, language := d.language }

/-- The full meta of an analyzed result (lines 134–144). -/
def metaFull (d : FetchedRecord) : VideoMeta :=
  { title := d.title, description := some d.description,
    channel := d.channel_name, published_at := d.published_at,
    duration_seconds := d.duration_seconds, view_count := d.view_count,
    like_count := d.like_count, comment_count := d.comment_count,
    language := d.language }

/-- The per-item analysis prompt (lines 149–154): title, the first 300
characters of the description, and the transcript text. -/
def videoPrompt (env : Env) (idx : Nat) (m : VideoMeta) (ttext : String) : String :=
  env.buildVideoAnalysisPrompt idx m.title (strTake (m.description.getD "") 300) ttext

/-- The Gemini analysis block of `_process_one` (lines 146–186): first
generation call; on parse failure exactly one repair call carrying the first
6000 characters of the failed output; any exception (including the
`ValueError` raised on second parse failure) becomes
`{ok: false, error, text: analysis_text[:1200]}`.  Also returns the
`analyze_with_gemini` invocations made, in order. -/
def analysisStep (env : Env) (idx : Nat) (m : VideoMeta) (ttext : String) :
    Analysis × List GeminiCall :=
  match analyzeWithGemini env (videoPrompt env idx m ttext) 2048 with
  | .error e =>
    ({ ok := false, error := some e, text := "" },
     [{ prompt := videoPrompt env idx m ttext, max_output_tokens := 2048 }])
  | .ok resp =>
    match extractJsonFromText env.jsonLoads (pyStrip resp.text) with
    | some _ =>
      ({ ok := true, text := pyStrip resp.text },
       [{ prompt := videoPrompt env idx m ttext, max_output_tokens := 2048 }])
    | Option.none =>
      match analyzeWithGemini env
          (env.buildJsonRepairPrompt "video_analysis" (strTake (pyStrip resp.text) 6000)) 2048 with
      | .error e =>
        ({ ok := false, error := some e, text := strTake (pyStrip resp.text) 1200 },
         [{ prompt := videoPrompt env idx m ttext, max_output_tokens := 2048 },
          { prompt := env.buildJsonRepairPrompt "video_analysis"
              (strTake (pyStrip resp.text) 6000), max_output_tokens := 2048 }])
      | .ok resp2 =>
        match extractJsonFromText env.jsonLoads (pyStrip resp2.text) with
        | some _ =>
          ({ ok := true, text := pyStrip resp2.text },
           [{ prompt := videoPrompt env idx m ttext, max_output_tokens := 2048 },
            { prompt := env.buildJsonRepairPrompt "video_analysis"
                (strTake (pyStrip resp.text) 6000), max_output_tokens := 2048 }])
        | Option.none =>
          ({ ok := false,
             error := some "Gemini output is not valid JSON even after repair",
             text := strTake (pyStrip resp2.text) 1200 },
           [{ prompt := videoPrompt env idx m ttext, max_output_tokens := 2048 },
            { prompt := env.buildJsonRepairPrompt "video_analysis"
                (strTake (pyStrip resp.text) 6000), max_output_tokens := 2048 }])

/-- Model of `main._process_one(idx, url, lang_priority, sem)`: the per-item
pipeline.  The semaphore only schedules work and does not influence the
value, so it is not part of the model.  Also returns the
`analyze_with_gemini` invocations made for this item. -/
def processOne (env : Env) (idx : Nat) (url : String) (langPriority : List String) :
    ItemResult × List GeminiCall :=
  match fetchLoop env url langPriority Option.none with
  | (Option.none, apifyError) =>
    ({ index := idx, url := url, ok := false, stage := some "apify",
       error := some (orElseStr apifyError "Apify failed") }, [])
  | (some d, _) =>
    if extractTranscript env d = "" then
      ({ index := idx, url := url, ok := false, stage := some "transcript",
         meta := some (metaShort d),
         error := some "NO_TRANSCRIPT_RETURNED_BY_APIFY" }, [])
    else
      ({ index := idx, url := url, ok := true, meta := some (metaFull d),
         transcript_chars := some (extractTranscript env d).length,
         videoAnalysis := some (analysisStep env idx (metaFull d) (extractTranscript env d)).1 },
       (analysisStep env idx (metaFull d) (extractTranscript env d)).2)

/-! ## Aggregation and response assembly (`app/main.py` lines 198–329) -/

/-- Model of `_build_warnings(videos)`: one warning per failed item, plus one per
analyzed item whose `videoAnalysis.ok` is `False`, in item order. -/
def buildWarnings : List ItemResult → List WarningEntry
  | [] => []
  | v :: rest =>
    if v.ok = false then
      { index := v.index, url := v.url, stage := v.stage, error := v.error }
        :: buildWarnings rest
    else
      match v.videoAnalysis with
      | some va =>
        if va.ok = false then
          { index := v.index, url := v.url, stage := some "gemini_video_analysis",
            error := va.error } :: buildWarnings rest
        else buildWarnings rest
      | Option.none => buildWarnings rest

/-- Is the parsed analysis a dict whose `ok` field is the JSON value
`true`?  (`isinstance(parsed, dict) and parsed.get("ok") is True`.) -/
def isOkObj (p : Json) : Bool :=
  match p with
  | .obj _ =>
    match jget p "ok" with
    | some (.bool true) => true
    | _ => false
  | _ => false

/-- The `slim` projection of a parsed per-video analysis (lines 254–290):
the fixed subset of fields, each defaulted to `null`, `[]` or `{}` when
absent or falsy. -/
def slimProject (parsed : Json) : Json :=
  let hook := jgetOr parsed "hook" (Json.obj [])
  let structJ := jgetOr parsed "structure" (Json.obj [])
  let styleTone := jgetOr parsed "style_tone" (Json.obj [])
  let exprMarkers := jgetOr parsed "expression_markers" (Json.obj [])
  let retention := jgetOr parsed "retention" (Json.obj [])
  let quotes := jgetOr parsed "quotes" (Json.obj [("items", Json.arr [])])
  Json.obj [
    ("video_index", jgetN parsed "video_index"),
    ("hook", Json.obj [
      ("summary", jgetN hook "summary"),
      ("techniques", jgetOr hook "techniques" (Json.arr [])),
      ("frames", jgetOr hook "frames" (Json.arr []))]),
    ("structure", Json.obj [
      ("template", jgetN structJ "template"),
      ("beats", jgetOr structJ "beats" (Json.arr [])),
      ("pacing", jgetN structJ "pacing")]),
    ("style_tone", Json.obj [
      ("persona", jgetN styleTone "persona"),
      ("narration_style", jgetN styleTone "narration_style"),
      ("tone_keywords", jgetOr styleTone "tone_keywords" (Json.arr []))]),
    ("expression_markers", Json.obj [
      ("punctuation", jgetOr exprMarkers "punctuation" (Json.arr [])),
      ("catchphrases", jgetOr exprMarkers "catchphrases" (Json.arr [])),
      ("rhythm", jgetN exprMarkers "rhythm"),
      ("numbers_style", jgetN exprMarkers "numbers_style")]),
    ("retention", Json.obj [
      ("recurring_devices", jgetOr retention "recurring_devices" (Json.arr [])),
      ("cta", jgetN retention "cta")]),
    ("quotes", quotes)]

/-- The meta subset attached to each evidence record (lines 298–303). -/
def metaJsonOf (m? : Option VideoMeta) : Json :=
  match m? with
  | some m => Json.obj [
      ("title", Json.str m.title), ("channel", Json.str m.channel),
      ("published_at", Json.str m.published_at), ("language", Json.str m.language)]
  | Option.none => Json.obj [
      ("title", Json.str ""), ("channel", Json.str ""),
      ("published_at", Json.str ""), ("language", Json.str "")]

/-- The aggregation filter and evidence projection of `_analyze_impl`
(lines 240–305): keep items with outer `ok` and a non-failed
`videoAnalysis`; re-parse the analysis text; project the slim "format DNA"
when the parse yields a dict with `ok: true`, otherwise fall back to a
1200-character raw snippet. -/
def evidenceOf (env : Env) (v : ItemResult) : Option Json :=
  if v.ok = false then Option.none
  else
    match v.videoAnalysis with
    | Option.none => Option.none
    | some va =>
      if va.ok = false then Option.none
      else
        let text := pyStrip va.text
        let slim :=
          match extractJsonFromText env.jsonLoads text with
          | some parsed =>
            if isOkObj parsed then slimProject parsed
            else Json.obj [("raw_text", Json.str (strTake text 1200))]
          | Option.none => Json.obj [("raw_text", Json.str (strTake text 1200))]
        some (Json.obj [
          ("index", Json.num (Int.ofNat v.index)),
          ("url", Json.str v.url),
          ("meta", metaJsonOf v.meta),
          ("dna", slim)])

/-- The channel-profile block of `_analyze_impl` (lines 236–319): skipped
(Python `None`) when the flag is false; otherwise one synthesis call over
the serialized evidence records, an `{ok: false, error}` record on
exception, and a fixed failure record when no usable analyses exist. -/
def mkChannelProfile (env : Env) (flag : Bool) (videos : List ItemResult) :
    Option ProfileResult :=
  if flag then
    match videos.filterMap (evidenceOf env) with
    | [] => some (.failure "No valid per-video analyses to build channel profile")
    | analyses =>
      match analyzeWithGemini env
          (env.buildChannelProfilePrompt (env.jsonDumps (Json.arr analyses))) 2048 with
      | .ok resp => some (.success resp.model resp.text)
      | .error e => some (.failure e)
  else Option.none

/-- Model of `enumerate(urls)` with 1-based indices feeding `asyncio.gather`: the
per-item pipelines run concurrently, but `gather` returns results in task
order, so the collected list is an index-ordered map. -/
def mapIdxFrom {α β : Type} (f : Nat → α → β) : Nat → List α → List β
  | _, [] => []
  | i, u :: rest => f i u :: mapIdxFrom f (i + 1) rest

/-- The response document `_analyze_impl` builds once validation passed
(lines 226–329). -/
def analyzeDoc (env : Env) (req : AnalyzeReq) : ResponseDoc :=
  let urls := normalize_urls (.list req.urls)
  let langPriority := pick_language_priority (some req.languages)
  let videos := mapIdxFrom (fun i u => (processOne env i u langPriority).1) 1 urls
  { ok := true, count := videos.length, videos := videos,
    channelProfile := mkChannelProfile env req.make_channel_profile videos,
    warnings := buildWarnings videos }

/-- Model of `main._analyze_impl(req)`: reject with HTTP 400 `"urls is empty"` when
the normalized URL list is empty, otherwise produce the response
document. -/
def analyzeImpl (env : Env) (req : AnalyzeReq) : Except HttpError ResponseDoc :=
  if normalize_urls (.list req.urls) = [] then
    .error { status := 400, detail := "urls is empty" }
  else .ok (analyzeDoc env req)

/-- The keys of the JSON object returned by `_analyze_impl` (lines
323–329): the dict literal always contains all five keys; in particular
`channelProfile` is present (as `null`) even when aggregation is skipped. -/
def responseDocJsonKeys (_doc : ResponseDoc) : List String :=
  ["ok", "count", "videos", "channelProfile", "warnings"]

/-! ## Concrete fixtures used by the witness theorems -/

/-- An environment in which every provider call fails. -/
def envW : Env :=
  { fetch := fun _ _ => .error "boom",
    generateContent := fun _ => .error "gem-down",
    jsonLoads := fun _ => Option.none,
    jsonDumps := fun _ => "[]",
    buildVideoAnalysisPrompt := fun _ _ _ _ => "vp",
    buildChannelProfilePrompt := fun _ => "cp",
    buildJsonRepairPrompt := fun _ _ => "rp",
    geminiModel := "gemini-2.5-flash",
    maxTranscriptChars := 18000 }

/-- An environment whose fetch failures carry an empty exception message
(e.g. an `httpx` timeout whose `str(e)` is `""`). -/
def envE : Env := { envW with fetch := fun _ _ => .error "" }

/-- An environment whose fetch failures carry distinct messages per
language. -/
def envE2 : Env :=
  { envW with fetch := fun _ lang => .error (if lang = "en" then "e2" else "e1") }

/-- A fetched record with a short flat transcript. -/
def recW : FetchedRecord := { transcript_text := "hi" }

/-- An environment in which fetch succeeds, generation returns text that
never parses as JSON, so the per-item analysis exercises the repair path. -/
def envR : Env :=
  { envW with fetch := fun _ _ => .ok recW,
              generateContent := fun _ => .ok (some "notjson") }

/-- A request with two distinct valid URLs. -/
def reqW : AnalyzeReq := { urls := ["https://a", "https://b"] }

/-- A valid request with aggregation disabled. -/
def reqC2 : AnalyzeReq := { urls := ["https://a"], make_channel_profile := false }

/-- A syntactically valid request none of whose entries carries an
`http(s)://` prefix, so normalization yields the empty list. -/
def reqEmpty : AnalyzeReq := { urls := ["youtu.be/abc", "ftp://x"] }

/-! ## Helper lemmas -/

theorem length_mapIdxFrom {α β : Type} (f : Nat → α → β) :
    ∀ (l : List α) (i : Nat), (mapIdxFrom f i l).length = l.length
  | [], _ => rfl
  | _ :: rest, i => by
    simp only [mapIdxFrom, List.length_cons, length_mapIdxFrom f rest (i + 1)]

theorem getElem?_mapIdxFrom {α β : Type} (f : Nat → α → β) :
    ∀ (l : List α) (i k : Nat), (mapIdxFrom f i l)[k]? = (l[k]?).map (f (i + k))
  | [], _, _ => by simp [mapIdxFrom]
  | u :: rest, i, 0 => by simp [mapIdxFrom]
  | u :: rest, i, k + 1 => by
    simp only [mapIdxFrom, List.getElem?_cons_succ,
      getElem?_mapIdxFrom f rest (i + 1) k]
    rw [Nat.add_assoc, Nat.add_comm 1 k]

/-- Every shape `_process_one` returns carries the caller's index and URL. -/
theorem processOne_index_url (env : Env) (idx : Nat) (url : String)
    (langs : List String) :
    (processOne env idx url langs).1.index = idx ∧
    (processOne env idx url langs).1.url = url := by
  unfold processOne
  rcases hf : fetchLoop env url langs Option.none with ⟨d?, e?⟩
  cases d? with
  | none => simp
  | some d => by_cases ht : extractTranscript env d = "" <;> simp [ht]

/-- When normalization yields a non-empty URL list, `_analyze_impl` returns
the assembled response document. -/
theorem analyzeImpl_ok (env : Env) (req : AnalyzeReq)
    (h : normalize_urls (.list req.urls) ≠ []) :
    analyzeImpl env req = .ok (analyzeDoc env req) := by
  simp [analyzeImpl, h]

/-- With the aggregation flag set, the channel-profile block always
produces a value (a synthesis result or a failure record). -/
theorem mkChannelProfile_true (env : Env) (videos : List ItemResult) :
    ∃ p, mkChannelProfile env true videos = some p := by
  unfold mkChannelProfile
  simp only [if_pos]
  split
  · exact ⟨_, rfl⟩
  · split
    · exact ⟨_, rfl⟩
    · exact ⟨_, rfl⟩

/-! ## Claim theorems -/

/-- C7: `pick_language_priority` applied to `None`, to the empty list, and
to a list of only empty/whitespace strings all return the fixed default
`["ko", "en"]`. -/
theorem c7_language_priority_default :
    pick_language_priority Option.none = ["ko", "en"] ∧
    pick_language_priority (some []) = ["ko", "en"] ∧
    pick_language_priority (some ["", " "]) = ["ko", "en"] := by
  refine ⟨rfl, rfl, ?_⟩
  decide

/-- C8: compacting `"Hello   world\n\n\n\nEnd"` with `max_chars = 100`
collapses the space run to one space and the four newlines to exactly two,
yielding `"Hello world\n\nEnd"`. -/
theorem c8_compact_text_example :
    compact_text "Hello   world\n\n\n\nEnd" 100 = "Hello world\n\nEnd" := by
  decide

/-- C10: a request whose urls normalize to the empty list is rejected with
HTTP 400 `"urls is empty"`, and no response document is produced;
normalization itself raised no error — it silently dropped the malformed
entries. -/
theorem c10_empty_normalization_rejected (env : Env) (req : AnalyzeReq)
    (h : normalize_urls (.list req.urls) = []) :
    analyzeImpl env req = .error { status := 400, detail := "urls is empty" } := by
  simp [analyzeImpl, h]

/-- C10 witness: a non-empty urls array with no `http(s)://` entry. -/
theorem c10_empty_normalization_rejected_witness :
    normalize_urls (.list reqEmpty.urls) = [] ∧
    analyzeImpl envW reqEmpty = .error { status := 400, detail := "urls is empty" } :=
  ⟨by decide, c10_empty_normalization_rejected envW reqEmpty (by decide)⟩

/-- C9: for every request that passes validation the top-level `ok` field
of the response document is `true`, for every environment — in particular
when every per-item pipeline and the profile synthesis failed. -/
theorem c9_top_level_ok (env : Env) (req : AnalyzeReq)
    (h : normalize_urls (.list req.urls) ≠ []) :
    ∃ doc, analyzeImpl env req = .ok doc ∧ doc.ok = true :=
  ⟨analyzeDoc env req, analyzeImpl_ok env req h, rfl⟩

/-- C9 witness: an environment in which every fetch fails; the document
still reports `ok = true`. -/
theorem c9_top_level_ok_witness :
    normalize_urls (.list reqW.urls) ≠ [] ∧
    ∃ doc, analyzeImpl envW reqW = .ok doc ∧ doc.ok = true :=
  ⟨by decide, c9_top_level_ok envW reqW (by decide)⟩

/-- C3: for every prompt and for every `max_output_tokens` argument the
call sites supply (the per-item analysis, the repair attempt and the
aggregation synthesis all pass 2048), the provider request built by
`analyze_with_gemini` carries **no** output-token ceiling: the function
accepts the bound but invokes `generate_content` without a generation
config, so the response is not bounded as the spec claims. -/
theorem c3_output_ceiling_not_applied (env : Env) (prompt : String) (n : Nat)
    (idx : Nat) (url : String) (langs : List String) :
    (geminiRequest env prompt n).maxOutputTokens = Option.none ∧
    ∀ call ∈ (processOne env idx url langs).2, call.max_output_tokens = 2048 := by
  refine ⟨rfl, ?_⟩
  intro call hc
  unfold processOne at hc
  split at hc
  · simp at hc
  · split at hc
    · simp at hc
    · simp only [] at hc
      unfold analysisStep at hc
      split at hc
      · simp at hc; simp [hc]
      · split at hc
        · simp at hc; simp [hc]
        · split at hc
          · simp at hc
            rcases hc with hc | hc <;> simp [hc]
          · split at hc <;> simp at hc <;> rcases hc with hc | hc <;> simp [hc]

/-- C2 counterexample: with `make_channel_profile = false` the
`channelProfile` field is **not** absent from the response document — the
dict literal of `_analyze_impl` always contains the key, whose value is
Python `None` (JSON `null`) when aggregation is disabled.  This refutes
"omitted (absent from the document) iff make_channel_profile is false". -/
theorem c2_channel_profile_key_present :
    reqC2.make_channel_profile = false ∧
    (analyzeImpl envW reqC2).toOption.map responseDocJsonKeys =
      some ["ok", "count", "videos", "channelProfile", "warnings"] ∧
    (analyzeImpl envW reqC2).toOption.map ResponseDoc.channelProfile =
      some Option.none := by
  refine ⟨rfl, ?_, ?_⟩ <;> decide

/-- C2 amended: `channelProfile` is null (not absent) iff
`make_channel_profile` is false; when the flag is true it is non-null and
is either a successful synthesis result or an `{ok: false, error}`
record. -/
theorem c2_channel_profile_null_iff (env : Env) (req : AnalyzeReq)
    (h : normalize_urls (.list req.urls) ≠ []) :
    ∃ doc, analyzeImpl env req = .ok doc ∧
      (doc.channelProfile = Option.none ↔ req.make_channel_profile = false) ∧
      (req.make_channel_profile = true →
        ∃ p, doc.channelProfile = some p ∧
          ((∃ m t, p = ProfileResult.success m t) ∨ ∃ e, p = ProfileResult.failure e)) := by
  refine ⟨analyzeDoc env req, analyzeImpl_ok env req h, ?_⟩
  have hcp : (analyzeDoc env req).channelProfile =
      mkChannelProfile env req.make_channel_profile
        (mapIdxFrom (fun i u =>
          (processOne env i u (pick_language_priority (some req.languages))).1) 1
          (normalize_urls (.list req.urls))) := rfl
  cases hflag : req.make_channel_profile with
  | false =>
    refine ⟨?_, by simp⟩
    rw [hcp, hflag]
    simp [mkChannelProfile]
  | true =>
    obtain ⟨p, hp⟩ := mkChannelProfile_true env
      (mapIdxFrom (fun i u =>
        (processOne env i u (pick_language_priority (some req.languages))).1) 1
        (normalize_urls (.list req.urls)))
    rw [hcp, hflag]
    refine ⟨by simp [hp], fun _ => ⟨p, hp, ?_⟩⟩
    cases p with
    | success m t => exact Or.inl ⟨m, t, rfl⟩
    | failure e => exact Or.inr ⟨e, rfl⟩

/-- C2 amended witness. -/
theorem c2_channel_profile_null_iff_witness :
    normalize_urls (.list reqW.urls) ≠ [] ∧
    (∃ doc, analyzeImpl envW reqW = .ok doc ∧
      (doc.channelProfile = Option.none ↔ reqW.make_channel_profile = false) ∧
      (reqW.make_channel_profile = true →
        ∃ p, doc.channelProfile = some p ∧
          ((∃ m t, p = ProfileResult.success m t) ∨ ∃ e, p = ProfileResult.failure e))) :=
  ⟨by decide, c2_channel_profile_null_iff envW reqW (by decide)⟩

/-- When every language attempt errors, the fetch loop ends with no data
and stores the message of the last attempt, whatever error was previously
accumulated. -/
theorem fetchLoop_all_error (env : Env) (url : String) (elast : String) :
    ∀ (langs : List String) (hne : langs ≠ [])
      (_hall : ∀ lang ∈ langs, ∃ e, env.fetch url lang = .error e)
      (_hlast : env.fetch url (langs.getLast hne) = .error elast)
      (acc : Option String),
      fetchLoop env url langs acc = (Option.none, some elast)
  | [], hne, _, _, _ => absurd rfl hne
  | [l], _, _, hlast, acc => by
    simp only [List.getLast_singleton] at hlast
    simp [fetchLoop, hlast]
  | l :: l' :: rest, _, hall, hlast, acc => by
    obtain ⟨e, he⟩ := hall l (List.mem_cons_self l _)
    have hne' : l' :: rest ≠ [] := List.cons_ne_nil l' rest
    have hlast' : env.fetch url ((l' :: rest).getLast hne') = .error elast := by
      rwa [List.getLast_cons hne'] at hlast
    have hall' : ∀ lang ∈ l' :: rest, ∃ e, env.fetch url lang = .error e :=
      fun lang hl => hall lang (List.mem_cons_of_mem l hl)
    simp only [fetchLoop, he]
    exact fetchLoop_all_error env url elast (l' :: rest) hne' hall' hlast' (some e)

/-- C4 counterexample: when every attempt errors with the empty string, the
item's `error` is the fallback `"Apify failed"`, not the empty error string
of the last attempted language — refuting "error equal to the error string
of the last attempted language" as a universal statement. -/
theorem c4_empty_error_fallback :
    envE.fetch "https://a" "ko" = .error "" ∧
    envE.fetch "https://a" "en" = .error "" ∧
    (processOne envE 1 "https://a" ["ko", "en"]).1.error = some "Apify failed" ∧
    some "Apify failed" ≠ (some "" : Option String) :=
  ⟨rfl, rfl, by decide, by decide⟩

/-- C4 amended: if the fetch errors for every language in the priority
list, the item result is exactly
`{index, url, ok: false, stage: "apify", error}` with `error` the message
of the last attempted language when that message is non-empty and the fixed
fallback `"Apify failed"` when it is empty; in particular the result
carries no `videoAnalysis` (and no meta) field. -/
theorem c4_all_fetch_failures (env : Env) (idx : Nat) (url : String)
    (langs : List String) (elast : String) (hne : langs ≠ [])
    (hall : ∀ lang ∈ langs, ∃ e, env.fetch url lang = .error e)
    (hlast : env.fetch url (langs.getLast hne) = .error elast) :
    (processOne env idx url langs).1 =
      { index := idx, url := url, ok := false, stage := some "apify",
        error := some (if elast = "" then "Apify failed" else elast) } ∧
    (processOne env idx url langs).1.videoAnalysis = Option.none := by
  have hloop := fetchLoop_all_error env url elast langs hne hall hlast Option.none
  constructor
  · unfold processOne
    rw [hloop]
    simp [orElseStr]
  · unfold processOne
    rw [hloop]

/-- C4 amended witness: two languages, both failing, distinct messages; the
result carries the second (last) message. -/
theorem c4_all_fetch_failures_witness :
    (∀ lang ∈ (["ko", "en"] : List String), ∃ e, envE2.fetch "https://a" lang = .error e) ∧
    envE2.fetch "https://a" ((["ko", "en"] : List String).getLast (by decide)) = .error "e2" ∧
    ((processOne envE2 1 "https://a" ["ko", "en"]).1 =
      { index := 1, url := "https://a", ok := false, stage := some "apify",
        error := some (if "e2" = "" then "Apify failed" else "e2") } ∧
     (processOne envE2 1 "https://a" ["ko", "en"]).1.videoAnalysis = Option.none) :=
  ⟨fun lang _ => ⟨if lang = "en" then "e2" else "e1", rfl⟩, rfl,
   c4_all_fetch_failures envE2 1 "https://a" ["ko", "en"] "e2" (by decide)
     (fun lang _ => ⟨if lang = "en" then "e2" else "e1", rfl⟩) rfl⟩

/-- C1: for every request that passes validation, the response's `videos`
list has exactly one entry per URL of the deduplicated, order-preserving
normalization of the input urls, and the entry at 0-based position `k` has
`index = k + 1` and `url` equal to the `(k+1)`-th normalized URL.  The
orchestrator gathers results in task order, so this holds regardless of the
completion order of the concurrent per-item pipelines. -/
theorem c1_videos_match_urls (env : Env) (req : AnalyzeReq)
    (h : normalize_urls (.list req.urls) ≠ []) :
    ∃ doc, analyzeImpl env req = .ok doc ∧
      doc.videos.length = (normalize_urls (.list req.urls)).length ∧
      ∀ k v, doc.videos[k]? = some v →
        v.index = k + 1 ∧ (normalize_urls (.list req.urls))[k]? = some v.url := by
  refine ⟨analyzeDoc env req, analyzeImpl_ok env req h, ?_, ?_⟩
  · exact length_mapIdxFrom _ (normalize_urls (.list req.urls)) 1
  · intro k v hv
    have hdoc : (analyzeDoc env req).videos =
        mapIdxFrom (fun i u => (processOne env i u
          (pick_language_priority (some req.languages))).1) 1
          (normalize_urls (.list req.urls)) := rfl
    rw [hdoc, getElem?_mapIdxFrom] at hv
    cases hu : (normalize_urls (.list req.urls))[k]? with
    | none => rw [hu] at hv; simp at hv
    | some u =>
      rw [hu] at hv
      simp only [Option.map_some'] at hv
      have hv2 := Option.some.inj hv
      subst hv2
      obtain ⟨hidx, hurl⟩ := processOne_index_url env (1 + k) u
        (pick_language_priority (some req.languages))
      exact ⟨by rw [hidx]; exact Nat.add_comm 1 k, by rw [hurl]⟩

/-- C1 witness: two URLs in an all-failing environment still produce two
index-ordered entries. -/
theorem c1_videos_match_urls_witness :
    normalize_urls (.list reqW.urls) ≠ [] ∧
    (∃ doc, analyzeImpl envW reqW = .ok doc ∧
      doc.videos.length = (normalize_urls (.list reqW.urls)).length ∧
      ∀ k v, doc.videos[k]? = some v →
        v.index = k + 1 ∧ (normalize_urls (.list reqW.urls))[k]? = some v.url) :=
  ⟨by decide, c1_videos_match_urls envW reqW (by decide)⟩

/-- C5: per-item analysis makes no repair call when the first generation
output parses; otherwise it makes exactly one repair call carrying the
first 6000 characters of the failed output, whose parse outcome is final —
on second parse failure the item still has outer `ok = true` with an
analysis-failed sub-result (1200-character snippet), and no further call
occurs. -/
theorem c5_exactly_one_repair (env : Env) (idx : Nat) (url : String)
    (langs : List String) (d : FetchedRecord) (oe : Option String)
    (hfetch : fetchLoop env url langs Option.none = (some d, oe))
    (htext : extractTranscript env d ≠ "") :
    ∀ resp, analyzeWithGemini env
        (videoPrompt env idx (metaFull d) (extractTranscript env d)) 2048 = .ok resp →
      (((extractJsonFromText env.jsonLoads (pyStrip resp.text)).isSome →
          (processOne env idx url langs).2 =
            [{ prompt := videoPrompt env idx (metaFull d) (extractTranscript env d),
               max_output_tokens := 2048 }]) ∧
        (extractJsonFromText env.jsonLoads (pyStrip resp.text) = Option.none →
          (processOne env idx url langs).2 =
            [{ prompt := videoPrompt env idx (metaFull d) (extractTranscript env d),
               max_output_tokens := 2048 },
             { prompt := env.buildJsonRepairPrompt "video_analysis"
                 (strTake (pyStrip resp.text) 6000), max_output_tokens := 2048 }] ∧
          (processOne env idx url langs).1.ok = true ∧
          ∀ resp2, analyzeWithGemini env (env.buildJsonRepairPrompt "video_analysis"
              (strTake (pyStrip resp.text) 6000)) 2048 = .ok resp2 →
            extractJsonFromText env.jsonLoads (pyStrip resp2.text) = Option.none →
            (processOne env idx url langs).1.videoAnalysis =
              some { ok := false,
                     error := some "Gemini output is not valid JSON even after repair",
                     text := strTake (pyStrip resp2.text) 1200 })) := by
  intro resp hresp
  have hstep : processOne env idx url langs =
      ({ index := idx, url := url, ok := true, meta := some (metaFull d),
         transcript_chars := some (extractTranscript env d).length,
         videoAnalysis :=
           some (analysisStep env idx (metaFull d) (extractTranscript env d)).1 },
       (analysisStep env idx (metaFull d) (extractTranscript env d)).2) := by
    unfold processOne
    rw [hfetch]
    simp [htext]
  constructor
  · intro hsome
    obtain ⟨j, hj⟩ := Option.isSome_iff_exists.mp hsome
    rw [hstep]
    unfold analysisStep
    simp only [hresp, hj]
  · intro hnone
    rw [hstep]
    refine ⟨?_, rfl, ?_⟩
    · unfold analysisStep
      simp only [hresp, hnone]
      split
      · rfl
      · split <;> rfl
    · intro resp2 hresp2 hparse2
      unfold analysisStep
      simp only [hresp, hnone, hresp2, hparse2]

/-- C5 witness: a succeeding fetch, generation text that never parses —
the repair path runs exactly once and the item ends analyze-failed with
outer success. -/
theorem c5_exactly_one_repair_witness :
    fetchLoop envR "https://a" ["ko"] Option.none = (some recW, Option.none) ∧
    extractTranscript envR recW ≠ "" ∧
    (∀ resp, analyzeWithGemini envR
        (videoPrompt envR 1 (metaFull recW) (extractTranscript envR recW)) 2048 = .ok resp →
      (((extractJsonFromText envR.jsonLoads (pyStrip resp.text)).isSome →
          (processOne envR 1 "https://a" ["ko"]).2 =
            [{ prompt := videoPrompt envR 1 (metaFull recW) (extractTranscript envR recW),
               max_output_tokens := 2048 }]) ∧
        (extractJsonFromText envR.jsonLoads (pyStrip resp.text) = Option.none →
          (processOne envR 1 "https://a" ["ko"]).2 =
            [{ prompt := videoPrompt envR 1 (metaFull recW) (extractTranscript envR recW),
               max_output_tokens := 2048 },
             { prompt := envR.buildJsonRepairPrompt "video_analysis"
                 (strTake (pyStrip resp.text) 6000), max_output_tokens := 2048 }] ∧
          (processOne envR 1 "https://a" ["ko"]).1.ok = true ∧
          ∀ resp2, analyzeWithGemini envR (envR.buildJsonRepairPrompt "video_analysis"
              (strTake (pyStrip resp.text) 6000)) 2048 = .ok resp2 →
            extractJsonFromText envR.jsonLoads (pyStrip resp2.text) = Option.none →
            (processOne envR 1 "https://a" ["ko"]).1.videoAnalysis =
              some { ok := false,
                     error := some "Gemini output is not valid JSON even after repair",
                     text := strTake (pyStrip resp2.text) 1200 }))) :=
  ⟨rfl, by decide, c5_exactly_one_repair envR 1 "https://a" ["ko"] recW Option.none rfl (by decide)⟩

/-! ## Lemmas for the idempotence of `normalize_urls` -/

theorem not_pySpace_of_not_sep {c : Char} (h : isSepChar c = false) :
    isPySpace c = false := by
  cases hp : isPySpace c
  · rfl
  · exfalso
    rw [isSepChar, hp] at h
    simp at h

theorem dropWhile_eq_self_of_all {p : Char → Bool} :
    ∀ l : List Char, (∀ c ∈ l, p c = false) → l.dropWhile p = l
  | [], _ => rfl
  | c :: rest, h => by
    rw [List.dropWhile_cons, if_neg]
    simp [h c (List.mem_cons_self c rest)]

theorem pyStripL_eq_self {l : List Char} (h : ∀ c ∈ l, isPySpace c = false) :
    pyStripL l = l := by
  unfold pyStripL
  rw [dropWhile_eq_self_of_all l h,
    dropWhile_eq_self_of_all l.reverse (fun c hc => h c (List.mem_reverse.mp hc)),
    List.reverse_reverse]

theorem mem_takeWhile_pred {p : Char → Bool} :
    ∀ (l : List Char) (c : Char), c ∈ l.takeWhile p → p c = true
  | [], _, h => by simp at h
  | a :: rest, c, h => by
    cases hpa : p a
    · rw [List.takeWhile_cons, if_neg (by simp [hpa])] at h
      simp at h
    · rw [List.takeWhile_cons, if_pos (by simp [hpa])] at h
      rcases List.mem_cons.mp h with rfl | h'
      · exact hpa
      · exact mem_takeWhile_pred rest c h'

/-- Every token produced by the chunk machine is non-empty and free of
separator characters (given a separator-free accumulator). -/
theorem chunksAux_mem : ∀ (l acc : List Char), (∀ c ∈ acc, isSepChar c = false) →
    ∀ p ∈ chunksAux acc l, p ≠ [] ∧ ∀ c ∈ p, isSepChar c = false
  | [], acc, hacc, p, hp => by
    cases acc with
    | nil => simp [chunksAux] at hp
    | cons a as =>
      simp only [chunksAux, List.mem_singleton] at hp
      subst hp
      refine ⟨by simp, fun c hc => hacc c (List.mem_reverse.mp hc)⟩
  | ch :: rest, acc, hacc, p, hp => by
    cases hsep : isSepChar ch
    · simp only [chunksAux, hsep] at hp
      rw [if_neg (by simp)] at hp
      exact chunksAux_mem rest (ch :: acc)
        (fun c hc => by
          rcases List.mem_cons.mp hc with rfl | hc'
          · exact hsep
          · exact hacc c hc') p hp
    · simp only [chunksAux, hsep] at hp
      rw [if_true] at hp
      rcases List.mem_append.mp hp with hl | hr
      · cases acc with
        | nil => simp at hl
        | cons a as =>
          simp only [List.mem_singleton] at hl
          subst hl
          refine ⟨by simp, fun c hc => hacc c (List.mem_reverse.mp hc)⟩
      · exact chunksAux_mem rest [] (by simp) p hr

/-- Pushing a separator-free block through the chunk machine accumulates
it. -/
theorem chunksAux_append_nonsep :
    ∀ (a : List Char), (∀ c ∈ a, isSepChar c = false) →
      ∀ (acc rest : List Char), chunksAux acc (a ++ rest) = chunksAux (a.reverse ++ acc) rest
  | [], _, acc, rest => by simp
  | c :: a', h, acc, rest => by
    have hc : isSepChar c = false := h c (List.mem_cons_self c a')
    show chunksAux acc (c :: (a' ++ rest)) = _
    rw [show chunksAux acc (c :: (a' ++ rest)) =
        if isSepChar c then
          (match acc with
            | [] => ([] : List (List Char))
            | _ => [acc.reverse]) ++ chunksAux [] (a' ++ rest)
        else chunksAux (c :: acc) (a' ++ rest) from rfl]
    rw [hc, if_neg (by simp)]
    rw [chunksAux_append_nonsep a' (fun x hx => h x (List.mem_cons_of_mem c hx)) (c :: acc) rest]
    congr 1
    simp

theorem chunksAux_nil_allsep :
    ∀ ws : List Char, (∀ c ∈ ws, isSepChar c = true) → chunksAux [] ws = []
  | [], _ => rfl
  | c :: rest, h => by
    have hc : isSepChar c = true := h c (List.mem_cons_self c rest)
    show (if isSepChar c then
        (match ([] : List Char) with
          | [] => ([] : List (List Char))
          | _ => [List.reverse []]) ++ chunksAux [] rest
      else chunksAux [c] rest) = []
    rw [hc, if_pos rfl]
    simpa using chunksAux_nil_allsep rest (fun x hx => h x (List.mem_cons_of_mem c hx))

theorem chunksAux_allsep (ws : List Char) (acc : List Char)
    (h : ∀ c ∈ ws, isSepChar c = true) : chunksAux acc ws = chunksAux acc [] := by
  cases ws with
  | nil => rfl
  | cons c rest =>
    have hc : isSepChar c = true := h c (List.mem_cons_self c rest)
    show (if isSepChar c then
        (match acc with
          | [] => ([] : List (List Char))
          | _ => [acc.reverse]) ++ chunksAux [] rest
      else chunksAux (c :: acc) rest) = chunksAux acc []
    rw [hc, if_pos rfl,
      chunksAux_nil_allsep rest (fun x hx => h x (List.mem_cons_of_mem c hx)),
      List.append_nil]
    cases acc <;> rfl

theorem chunksAux_append_allsep :
    ∀ (l ws acc : List Char), (∀ c ∈ ws, isSepChar c = true) →
      chunksAux acc (l ++ ws) = chunksAux acc l
  | [], ws, acc, h => by simpa using chunksAux_allsep ws acc h
  | c :: l', ws, acc, h => by
    cases hsep : isSepChar c
    · show (if isSepChar c then
          (match acc with
            | [] => ([] : List (List Char))
            | _ => [acc.reverse]) ++ chunksAux [] (l' ++ ws)
        else chunksAux (c :: acc) (l' ++ ws)) = _
      rw [hsep, if_neg (by simp), chunksAux_append_allsep l' ws (c :: acc) h]
      show _ = (if isSepChar c then
          (match acc with
            | [] => ([] : List (List Char))
            | _ => [acc.reverse]) ++ chunksAux [] l'
        else chunksAux (c :: acc) l')
      rw [hsep, if_neg (by simp)]
    · show (if isSepChar c then
          (match acc with
            | [] => ([] : List (List Char))
            | _ => [acc.reverse]) ++ chunksAux [] (l' ++ ws)
        else chunksAux (c :: acc) (l' ++ ws)) = _
      rw [hsep, if_pos rfl, chunksAux_append_allsep l' ws [] h]
      show _ = (if isSepChar c then
          (match acc with
            | [] => ([] : List (List Char))
            | _ => [acc.reverse]) ++ chunksAux [] l'
        else chunksAux (c :: acc) l')
      rw [hsep, if_pos rfl]

theorem splitTokens_dropWhile_pySpace :
    ∀ l : List Char, chunksAux [] (l.dropWhile isPySpace) = chunksAux [] l
  | [] => rfl
  | c :: rest => by
    cases hp : isPySpace c
    · rw [List.dropWhile_cons, if_neg (by simp [hp])]
    · have hs : isSepChar c = true := by rw [isSepChar, hp]; rfl
      rw [List.dropWhile_cons, if_pos (by simp [hp]),
        splitTokens_dropWhile_pySpace rest]
      show _ = (if isSepChar c then
          (match ([] : List Char) with
            | [] => ([] : List (List Char))
            | _ => [List.reverse []]) ++ chunksAux [] rest
        else chunksAux [c] rest)
      rw [hs, if_pos rfl]
      simp

/-- Stripping changes no tokens: the stripped characters are separators at
the ends of the string. -/
theorem splitTokens_pyStripL (l : List Char) :
    splitTokens (pyStripL l) = splitTokens l := by
  unfold splitTokens pyStripL
  have hdecomp : l.dropWhile isPySpace =
      ((l.dropWhile isPySpace).reverse.dropWhile isPySpace).reverse ++
        ((l.dropWhile isPySpace).reverse.takeWhile isPySpace).reverse := by
    conv_lhs => rw [← List.reverse_reverse (l.dropWhile isPySpace),
      ← List.takeWhile_append_dropWhile (p := isPySpace)
        (l := (l.dropWhile isPySpace).reverse)]
    rw [List.reverse_append]
  have hws : ∀ c ∈ ((l.dropWhile isPySpace).reverse.takeWhile isPySpace).reverse,
      isSepChar c = true := by
    intro c hc
    have hp : isPySpace c = true :=
      mem_takeWhile_pred _ c (List.mem_reverse.mp hc)
    rw [isSepChar, hp]
    rfl
  have h2 : chunksAux [] (l.dropWhile isPySpace) =
      chunksAux [] (((l.dropWhile isPySpace).reverse.dropWhile isPySpace).reverse) := by
    conv_lhs => rw [hdecomp]
    exact chunksAux_append_allsep _ _ [] hws
  rw [← h2]
  exact splitTokens_dropWhile_pySpace l

/-- Splitting the newline-join of non-empty separator-free tokens recovers
exactly the tokens. -/
theorem splitTokens_joinNL :
    ∀ ls : List (List Char), (∀ a ∈ ls, a ≠ [] ∧ ∀ c ∈ a, isSepChar c = false) →
      splitTokens (joinNL ls) = ls
  | [], _ => rfl
  | [a], h => by
    obtain ⟨hne, hsf⟩ := h a (by simp)
    show chunksAux [] (joinNL [a]) = [a]
    have hj : joinNL [a] = a := rfl
    rw [hj]
    have h2 : chunksAux [] a = chunksAux a.reverse [] := by
      simpa using chunksAux_append_nonsep a hsf [] []
    rw [h2]
    cases har : a.reverse with
    | nil => exact absurd (by simpa using congrArg List.reverse har) hne
    | cons x xs =>
      show [(x :: xs).reverse] = [a]
      rw [← har, List.reverse_reverse]
  | a :: b :: rest, h => by
    obtain ⟨hne, hsf⟩ := h a (by simp)
    show chunksAux [] (a ++ '\n' :: joinNL (b :: rest)) = a :: b :: rest
    rw [chunksAux_append_nonsep a hsf [] ('\n' :: joinNL (b :: rest)),
      List.append_nil]
    have hsepnl : isSepChar '\n' = true := by decide
    show (if isSepChar '\n' then
        (match a.reverse with
          | [] => ([] : List (List Char))
          | _ => [a.reverse.reverse]) ++ chunksAux [] (joinNL (b :: rest))
      else chunksAux ('\n' :: a.reverse) (joinNL (b :: rest))) = a :: b :: rest
    rw [hsepnl, if_pos rfl]
    have hrec := splitTokens_joinNL (b :: rest)
      (fun x hx => h x (List.mem_cons_of_mem a hx))
    unfold splitTokens at hrec
    rw [hrec]
    cases har : a.reverse with
    | nil => exact absurd (by simpa using congrArg List.reverse har) hne
    | cons x xs =>
      show [(x :: xs).reverse] ++ b :: rest = a :: b :: rest
      rw [← har, List.reverse_reverse]
      rfl

theorem mem_of_mem_dedupe :
    ∀ (l seen : List String) (x : String), x ∈ dedupe seen l → x ∈ l
  | [], _, x, h => by simp [dedupe] at h
  | u :: rest, seen, x, h => by
    by_cases hu : u ∈ seen
    · rw [dedupe, if_pos hu] at h
      exact List.mem_cons_of_mem u (mem_of_mem_dedupe rest seen x h)
    · rw [dedupe, if_neg hu] at h
      rcases List.mem_cons.mp h with rfl | h'
      · exact List.mem_cons_self x rest
      · exact List.mem_cons_of_mem u (mem_of_mem_dedupe rest (u :: seen) x h')

theorem dedupe_nodup_not_mem :
    ∀ (l seen : List String), (dedupe seen l).Nodup ∧ ∀ x ∈ dedupe seen l, x ∉ seen
  | [], seen => ⟨List.nodup_nil, by simp [dedupe]⟩
  | u :: rest, seen => by
    by_cases hu : u ∈ seen
    · rw [dedupe, if_pos hu]
      exact dedupe_nodup_not_mem rest seen
    · rw [dedupe, if_neg hu]
      obtain ⟨ih1, ih2⟩ := dedupe_nodup_not_mem rest (u :: seen)
      constructor
      · exact List.nodup_cons.mpr
          ⟨fun hmem => (ih2 u hmem) (List.mem_cons_self u seen), ih1⟩
      · intro x hx
        rcases List.mem_cons.mp hx with rfl | hx'
        · exact hu
        · exact fun hxs => (ih2 x hx') (List.mem_cons_of_mem u hxs)

theorem dedupe_eq_self :
    ∀ (l seen : List String), l.Nodup → (∀ x ∈ l, x ∉ seen) → dedupe seen l = l
  | [], _, _, _ => rfl
  | u :: rest, seen, hnd, hdisj => by
    have hu : u ∉ seen := hdisj u (List.mem_cons_self u rest)
    rw [dedupe, if_neg hu]
    congr 1
    refine dedupe_eq_self rest (u :: seen) (List.nodup_cons.mp hnd).2 ?_
    intro x hx hmem
    rcases List.mem_cons.mp hmem with rfl | hxs
    · exact (List.nodup_cons.mp hnd).1 hx
    · exact hdisj x (List.mem_cons_of_mem u hx) hxs

theorem filterMap_id_of {f : String → Option String} :
    ∀ l : List String, (∀ u ∈ l, f u = some u) → l.filterMap f = l
  | [], _ => rfl
  | u :: rest, h => by
    rw [List.filterMap_cons, h u (List.mem_cons_self u rest),
      filterMap_id_of rest (fun x hx => h x (List.mem_cons_of_mem u hx))]

/-- Every output of `normCore` is non-empty, separator-free and carries an
`http(s)://` prefix. -/
theorem normCore_mem (l : List Char) :
    ∀ u ∈ normCore l, u.toList ≠ [] ∧ (∀ c ∈ u.toList, isSepChar c = false) ∧
      startsHttp u.toList = true := by
  intro u hu
  unfold normCore at hu
  have hu' := mem_of_mem_dedupe _ _ _ hu
  rw [List.mem_filterMap] at hu'
  obtain ⟨p, hp, heq⟩ := hu'
  obtain ⟨hpne, hpsf⟩ := chunksAux_mem (pyStripL l) [] (by simp) p hp
  have hstrip : pyStripL p = p :=
    pyStripL_eq_self (fun c hc => not_pySpace_of_not_sep (hpsf c hc))
  rw [hstrip] at heq
  by_cases hhttp : startsHttp p
  · rw [if_pos hhttp] at heq
    obtain rfl := Option.some.inj heq
    exact ⟨by simpa using hpne, by simpa using hpsf, by simpa using hhttp⟩
  · rw [if_neg hhttp] at heq
    exact absurd heq (by simp)

theorem normCore_nodup (l : List Char) : (normCore l).Nodup :=
  (dedupe_nodup_not_mem _ _).1

/-- Re-normalizing the output of `normCore` is the identity. -/
theorem normCore_fixed (l : List Char) :
    normalize_urls (.list (normCore l)) = normCore l := by
  have hmem := normCore_mem l
  show normCore (joinNL (((normCore l).filter fun u => u ≠ "").map String.toList)) =
    normCore l
  have hfilter : ((normCore l).filter fun u => u ≠ "") = normCore l := by
    rw [List.filter_eq_self]
    intro u hu
    have h1 := (hmem u hu).1
    simpa using fun heq => h1 (by rw [heq]; rfl)
  rw [hfilter]
  have htok : splitTokens (pyStripL (joinNL ((normCore l).map String.toList))) =
      (normCore l).map String.toList := by
    rw [splitTokens_pyStripL]
    apply splitTokens_joinNL
    intro a ha
    rw [List.mem_map] at ha
    obtain ⟨u, hu, rfl⟩ := ha
    exact ⟨(hmem u hu).1, (hmem u hu).2.1⟩
  show dedupe []
      ((splitTokens (pyStripL (joinNL ((normCore l).map String.toList)))).filterMap
        fun p => if startsHttp (pyStripL p) then some (String.mk (pyStripL p))
          else none) = normCore l
  rw [htok, List.filterMap_map]
  have hfm : (normCore l).filterMap
      ((fun p => if startsHttp (pyStripL p) then some (String.mk (pyStripL p))
        else none) ∘ String.toList) = normCore l := by
    apply filterMap_id_of
    intro u hu
    obtain ⟨hne, hsf, hhttp⟩ := hmem u hu
    have hstrip : pyStripL u.toList = u.toList :=
      pyStripL_eq_self (fun c hc => not_pySpace_of_not_sep (hsf c hc))
    show (if startsHttp (pyStripL u.toList) then some (String.mk (pyStripL u.toList))
      else none) = some u
    rw [hstrip, if_pos (by simpa using hhttp)]
    cases u
    rfl
  rw [hfm]
  exact dedupe_eq_self (normCore l) [] (normCore_nodup l) (by simp)

/-- C6: `normalize_urls` is idempotent — applying it to its own output (a
list of strings) returns the same list, for every input representation
(list of strings, single string, or `None`). -/
theorem c6_normalize_urls_idempotent (x : PyUrls) :
    normalize_urls (.list (normalize_urls x)) = normalize_urls x := by
  cases x with
  | none => rfl
  | str s => exact normCore_fixed s.toList
  | list us => exact normCore_fixed _
